import Mathlib

/-!
Verification of the RSS-View ingestion pipeline and publication state machine.

This file shallowly embeds the Python sources (`main.py`, `database.py`,
`rss_reader.py`, `scraper.py`, `ai_handler.py`, `telegram_bot.py`) as Lean
definitions and proves or refutes the specification's claims about them.
External collaborators (HTTP fetch, the feed parsing library, trafilatura,
the AI service, Telegraph, the bot transport) appear as explicit inputs or
oracle fields, following the spec's interface-boundary treatment.
Machine-level details (sqlite storage, the asyncio event loop) are modelled
as pure state.
-/

namespace RSSView

/-! ## Python string primitives

`str.rstrip(chars)`, `str.strip()`, slicing and `int()` as used by the
sources.  Strings are handled through their character lists. -/

/-- The punctuation set of `rstrip('.,;:!?-–—')` used in `scraper.py`
lines 56/103/171/219 and `ai_handler.py` lines 116/118. -/
def punctChars : List Char := ['.', ',', ';', ':', '!', '?', '-', '–', '—']

/-- Python whitespace recognised by `str.strip()` / `\s` (ASCII subset;
the sources never produce non-ASCII whitespace). -/
def isPyWsC (c : Char) : Bool :=
  c = ' ' || c = '\t' || c = '\n' || c = '\r' || c = Char.ofNat 11 || c = Char.ofNat 12

/-- Remove trailing characters satisfying `p` (Python `rstrip`). -/
def rstripOn (p : Char → Bool) (l : List Char) : List Char :=
  (l.reverse.dropWhile p).reverse

/-- Remove leading characters satisfying `p` (Python `lstrip`). -/
def lstripOn (p : Char → Bool) (l : List Char) : List Char :=
  l.dropWhile p

/-- Python `str.strip()` on character lists. -/
def pyStripL (l : List Char) : List Char :=
  rstripOn isPyWsC (lstripOn isPyWsC l)

/-- Python `str.strip()`. -/
def pyStrip (s : String) : String := String.mk (pyStripL s.toList)

/-- Python `str.rstrip('.,;:!?-–—')`. -/
def pyRstripPunct (s : String) : String :=
  String.mk (rstripOn (fun c => punctChars.contains c) s.toList)

/-- The trimming composite `s.rstrip('.,;:!?-–—').strip()` applied to
generated titles and descriptions. -/
def pyTrim (s : String) : String := pyStrip (pyRstripPunct s)

/-- Python slicing `s[:n]` (by code point, as in CPython). -/
def pySlice (n : Nat) (s : String) : String := String.mk (s.toList.take n)

/-- Whether the last character of `s` is in the trimmed punctuation set. -/
def endsPunct (s : String) : Bool :=
  match s.toList.getLast? with
  | some c => punctChars.contains c
  | none => false

/-- List-level string containment used for Python's `in` on substrings. -/
def isPreL : List Char → List Char → Bool
  | [], _ => true
  | _ :: _, [] => false
  | a :: as, b :: bs => a = b && isPreL as bs

/-- Python `pat in hay` (substring containment). -/
def containsSubL (pat : List Char) : List Char → Bool
  | [] => isPreL pat []
  | c :: cs => isPreL pat (c :: cs) || containsSubL pat cs

/-- Python `pat in hay` on strings. -/
def containsSub (hay pat : String) : Bool := containsSubL pat.toList hay.toList

/-- Python `s.startswith(pre)`. -/
def startsWithS (s pre : String) : Bool := isPreL pre.toList s.toList

/-- ASCII lowering standing in for Python `str.lower()` (the compared
substrings in the sources are all ASCII). -/
def asciiLower (s : String) : String := String.mk (s.toList.map Char.toLower)

/-- Case-insensitive literal match; returns the rest on success. -/
def dropLitCI : List Char → List Char → Option (List Char)
  | [], l => some l
  | _ :: _, [] => none
  | p :: ps, c :: cs => if c.toLower = p.toLower then dropLitCI ps cs else none

/-- Case-sensitive literal match; returns the rest on success. -/
def dropLitCS : List Char → List Char → Option (List Char)
  | [], l => some l
  | _ :: _, [] => none
  | p :: ps, c :: cs => if c = p then dropLitCS ps cs else none

/-- One `str.replace` scan: replace non-overlapping occurrences left to
right (fuel is the input length; every match consumes at least one
character since the pattern is non-empty). -/
def replFuel (pat rep : List Char) : Nat → List Char → List Char
  | 0, l => l
  | _ + 1, [] => []
  | f + 1, c :: cs =>
    match dropLitCS pat (c :: cs) with
    | some rest => rep ++ replFuel pat rep f rest
    | none => c :: replFuel pat rep f cs

/-- Python `s.replace(pat, rep)` (the sources only use non-empty
patterns). -/
def pyReplace (s pat rep : String) : String :=
  if pat.toList = [] then s
  else String.mk (replFuel pat.toList rep.toList s.toList.length s.toList)

/-- Python `s.split('\n')` accumulator. -/
def splitNLAux : List Char → List Char → List String
  | [], cur => [String.mk cur.reverse]
  | c :: cs, cur =>
    if c = '\n' then String.mk cur.reverse :: splitNLAux cs []
    else splitNLAux cs (c :: cur)

/-- Python `s.split('\n')`. -/
def pySplitNL (s : String) : List String := splitNLAux s.toList []

/-- Python `int(s)` on the decimal strings the bot produces
(`f"pub_{article_id}"` only yields optionally signed digit runs). -/
def pyInt (s : String) : Option Int :=
  let l := pyStripL s.toList
  let signed : Bool × List Char :=
    match l with
    | '-' :: rest => (true, rest)
    | '+' :: rest => (false, rest)
    | rest => (false, rest)
  if signed.2 = [] then none
  else if !(signed.2.all Char.isDigit) then none
  else
    let n : Nat := signed.2.foldl (fun acc c => acc * 10 + (c.toNat - 48)) 0
    some (if signed.1 then -(n : Int) else (n : Int))

/-! ## Single-pass regex substitution

`re.sub` scans left to right: at each position it tries the pattern; a
match consumes its span and emits the replacement (which is not rescanned),
otherwise one character is copied and the scan advances.  `rewriteFuel`
implements this scan; fuel is the input length (every match consumes at
least one character). -/

/-- One left-to-right `re.sub` pass.  `step` returns, on a match at the
current position, the replacement text and the rest of the input after
the matched span. -/
def rewriteFuel (step : List Char → Option (List Char × List Char)) :
    Nat → List Char → List Char
  | 0, l => l
  | _ + 1, [] => []
  | f + 1, c :: cs =>
    match step (c :: cs) with
    | some (rep, rest) => rep ++ rewriteFuel step f rest
    | none => c :: rewriteFuel step f cs

/-- Apply one `re.sub` pass over a string. -/
def rewriteS (step : List Char → Option (List Char × List Char)) (s : String) : String :=
  String.mk (rewriteFuel step s.toList.length s.toList)

/-- Matcher for `</?NAME[^>]*>` (case-insensitive), as in the document-tag
removal of `clean_trafilatura_html`. -/
def stepDocTag (name : List Char) (l : List Char) : Option (List Char × List Char) :=
  match l with
  | '<' :: rest =>
    let rest1 := match rest with
      | '/' :: r => r
      | r => r
    match dropLitCI name rest1 with
    | none => none
    | some r2 =>
      match r2.dropWhile (fun c => c ≠ '>') with
      | '>' :: r3 => some ([], r3)
      | _ => none
  | _ => none

/-- Matcher for `<h[D]([^>]*)>` → `<hR\1>` where `D` ranges over `dset`
(case-sensitive, as in the source). -/
def stepHOpen (dset : List Char) (rep : Char) (l : List Char) :
    Option (List Char × List Char) :=
  match l with
  | '<' :: 'h' :: d :: rest =>
    if dset.contains d then
      let inTag := rest.takeWhile (fun c => c ≠ '>')
      match rest.dropWhile (fun c => c ≠ '>') with
      | '>' :: r => some ('<' :: 'h' :: rep :: (inTag ++ ['>']), r)
      | _ => none
    else none
  | _ => none

/-- Matcher for `</h[D]>` → `</hR>`. -/
def stepHClose (dset : List Char) (rep : Char) (l : List Char) :
    Option (List Char × List Char) :=
  match l with
  | '<' :: '/' :: 'h' :: d :: '>' :: r =>
    if dset.contains d then some (['<', '/', 'h', rep, '>'], r) else none
  | _ => none

/-- Matcher for `<p>\s*</p>` → empty. -/
def stepEmptyP (l : List Char) : Option (List Char × List Char) :=
  match l with
  | '<' :: 'p' :: '>' :: rest =>
    match rest.dropWhile isPyWsC with
    | '<' :: '/' :: 'p' :: '>' :: r => some ([], r)
    | _ => none
  | _ => none

/-- `scraper.clean_trafilatura_html`: strips document-structure tags,
collapses `h1/h2` to `h3` and `h5/h6` to `h4`, deletes empty paragraphs and
strips surrounding whitespace. -/
def clean_trafilatura_html (html_content : String) : String :=
  if html_content = "" then ""
  else
    let s1 := rewriteS (stepDocTag ("html").toList) html_content
    let s2 := rewriteS (stepDocTag ("head").toList) s1
    let s3 := rewriteS (stepDocTag ("body").toList) s2
    let s4 := rewriteS (stepHOpen ['1', '2'] '3') s3
    let s5 := rewriteS (stepHClose ['1', '2'] '3') s4
    let s6 := rewriteS (stepHOpen ['5', '6'] '4') s5
    let s7 := rewriteS (stepHClose ['5', '6'] '4') s6
    let s8 := rewriteS stepEmptyP s7
    pyStrip s8

/-- Matcher and capture for one `<p>([^<]+)</p>` occurrence. -/
def stepPCapture (l : List Char) : Option (String × List Char) :=
  match l with
  | '<' :: 'p' :: '>' :: rest =>
    let cap := rest.takeWhile (fun c => c ≠ '<')
    if cap = [] then none
    else
      match dropLitCS ("</p>").toList (rest.dropWhile (fun c => c ≠ '<')) with
      | some r => some (String.mk cap, r)
      | none => none
  | _ => none

/-- `re.findall(r'<p>([^<]+)</p>', s)` as used by
`extract_short_description_from_html`. -/
def pFindAllFuel : Nat → List Char → List String
  | 0, _ => []
  | _ + 1, [] => []
  | f + 1, c :: cs =>
    match stepPCapture (c :: cs) with
    | some (cap, rest) => cap :: pFindAllFuel f rest
    | none => pFindAllFuel f cs

/-- `scraper.extract_short_description_from_html`. -/
def extract_short_description_from_html (content_html : String) : String :=
  let p_matches := pFindAllFuel content_html.toList.length content_html.toList
  match p_matches.find? (fun p_text => 50 < (pyStrip p_text).length) with
  | some p_text =>
    let desc := pyTrim (pySlice 300 (pyStrip p_text))
    desc ++ (if 300 < p_text.length then "..." else "")
  | none => ""

/-- Image-path substrings rejected by `extract_main_image_from_html`. -/
def trafImgBad : List String := ["logo", "avatar", "icon", "spinner", ".gif"]

/-- First capture of `re.search(r'<img src="([^"]+)"', s)`. -/
def firstImgSrc : Nat → List Char → Option String
  | 0, _ => none
  | _ + 1, [] => none
  | f + 1, c :: cs =>
    match dropLitCS ("<img src=\"").toList (c :: cs) with
    | some rest =>
      let cap := rest.takeWhile (fun ch => ch ≠ '"')
      if cap = [] then firstImgSrc f cs else some (String.mk cap)
    | none => firstImgSrc f cs

/-- `scraper.extract_main_image_from_html`. -/
def extract_main_image_from_html (content_html : String) : Option String :=
  match firstImgSrc content_html.toList.length content_html.toList with
  | some img_url =>
    if trafImgBad.any (fun skip => containsSub (asciiLower img_url) skip)
    then none else some img_url
  | none => none

/-- Non-greedy capture for `(.+?)</a>`: the shortest non-empty newline-free
span followed by the literal `</a>`.  Returns the capture and the rest
after the closing tag. -/
def findAnchorCapture : List Char → List Char → Option (List Char × List Char)
  | [], _ => none
  | c :: cs, acc =>
    if c = '\n' then none
    else
      let acc2 := acc ++ [c]
      if isPreL ("</a>").toList cs then some (acc2, cs.drop 4)
      else findAnchorCapture cs acc2

/-- Matcher for `<a href="LINK_PLACEHOLDER">(.+?)</a>` → `\1`
(`main.py` line 131). -/
def stepLinkAnchor (l : List Char) : Option (List Char × List Char) :=
  match dropLitCS ("<a href=\"LINK_PLACEHOLDER\">").toList l with
  | some rest =>
    match findAnchorCapture rest [] with
    | some (cap, after) => some (cap, after)
    | none => none
  | none => none

/-- `re.sub(r'<a href="LINK_PLACEHOLDER">(.+?)</a>', r'\1', t)`. -/
def replaceLinkAnchor (t : String) : String := rewriteS stepLinkAnchor t

/-! ## Parsed HTML and the primary (BeautifulSoup) scraper

The HTML parser is an external library; its output is modelled as an
element tree.  Attributes carried are the ones the scraper reads:
`class`, `id`, `src`, `data-src` (`""` encodes an absent attribute, which
matches the `get(...) or` fallbacks of the source). -/

/-- A parsed HTML node. -/
inductive HNode where
  | elem (tag cls idAttr src dataSrc : String) (children : List HNode)
  | text (s : String)

/-- Element tag, `""` for text nodes. -/
def HNode.tagName : HNode → String
  | .elem t _ _ _ _ _ => t
  | .text _ => ""

/-- Class attribute, `""` for text nodes / absent attribute. -/
def HNode.clsAttr : HNode → String
  | .elem _ c _ _ _ _ => c
  | .text _ => ""

/-- Id attribute. -/
def HNode.idOf : HNode → String
  | .elem _ _ i _ _ _ => i
  | .text _ => ""

/-- `src` attribute. -/
def HNode.srcOf : HNode → String
  | .elem _ _ _ s _ _ => s
  | .text _ => ""

/-- `data-src` attribute. -/
def HNode.dataSrcOf : HNode → String
  | .elem _ _ _ _ d _ => d
  | .text _ => ""

/-- Children list. -/
def HNode.childrenOf : HNode → List HNode
  | .elem _ _ _ _ _ cs => cs
  | .text _ => []

mutual

/-- BeautifulSoup `get_text(strip=True)`: concatenation of the stripped
text descendants in document order. -/
def getTextStrip : HNode → String
  | .text s => pyStrip s
  | .elem _ _ _ _ _ cs => getTextStripList cs

/-- `getTextStrip` over a child list. -/
def getTextStripList : List HNode → String
  | [] => ""
  | n :: ns => getTextStrip n ++ getTextStripList ns

end

mutual

/-- Strict descendants of a node in document (pre-)order. -/
def descendants : HNode → List HNode
  | .text _ => []
  | .elem _ _ _ _ _ cs => descList cs

/-- All nodes of a forest in document order (each root followed by its
descendants). -/
def descList : List HNode → List HNode
  | [] => []
  | n :: ns => n :: (descendants n ++ descList ns)

end

/-- Whitespace-separated tokens of a class attribute (BeautifulSoup
multi-valued `class`). -/
def classTokens : List Char → List Char → List String
  | [], cur => if cur = [] then [] else [String.mk cur.reverse]
  | c :: cs, cur =>
    if isPyWsC c then
      if cur = [] then classTokens cs []
      else String.mk cur.reverse :: classTokens cs []
    else classTokens cs (c :: cur)

/-- BeautifulSoup `find(tag, class_=tok)` class test: the token list of the
`class` attribute contains `tok`. -/
def hasClassToken (tok : String) (n : HNode) : Bool :=
  (classTokens n.clsAttr.toList []).contains tok

/-- Tags decomposed before the walk (`scraper.py` line 76). -/
def removedTags : List String :=
  ["script", "style", "nav", "footer", "aside", "form", "iframe", "header"]

/-- Class substrings of the promotional denylist (`scraper.py`
lines 79–82); CSS `[class*="…"]` is substring match on the attribute. -/
def promoSubstrings : List String :=
  ["social", "share", "button", "ad", "promo", "sidebar", "comment",
   "related", "subscribe"]

/-- Whether a node is removed by the pre-cleaning (denylisted tag or
promotional class). -/
def removedNode (n : HNode) : Bool :=
  removedTags.contains n.tagName ||
    promoSubstrings.any (fun pat => containsSub n.clsAttr pat)

mutual

/-- The pre-cleaning (`decompose`) applied to the article body: removed
subtrees disappear entirely. -/
def stripRemoved : List HNode → List HNode
  | [] => []
  | n :: ns => stripRemovedN n ++ stripRemoved ns

/-- `stripRemoved` on a single node: empty if the node is removed,
otherwise the node with cleaned children. -/
def stripRemovedN : HNode → List HNode
  | .text s => [.text s]
  | .elem t c i s d cs =>
    if removedNode (.elem t c i s d cs) then []
    else [.elem t c i s d (stripRemoved cs)]

end

/-- The ordered container preference list of `scraper.py` lines 59–67,
with the `<body>` fallback of lines 69–73. -/
def findContainer (doc : List HNode) : Option HNode :=
  let all := descList doc
  let found :=
    (all.find? (fun n => n.tagName = "article")).orElse fun _ =>
    (all.find? (fun n => n.tagName = "div" && hasClassToken ("post-content") n)).orElse fun _ =>
    (all.find? (fun n => n.tagName = "div" && n.idOf = "article-body")).orElse fun _ =>
    (all.find? (fun n => n.tagName = "div" && hasClassToken ("article-body") n)).orElse fun _ =>
    (all.find? (fun n => n.tagName = "div" && hasClassToken ("entry-content") n)).orElse fun _ =>
    (all.find? (fun n => n.tagName = "div" && hasClassToken ("td-post-content") n)).orElse fun _ =>
    (all.find? (fun n => n.tagName = "main"))
  found.orElse fun _ => all.find? (fun n => n.tagName = "body")

/-- Image-source substrings skipped in the walk (`scraper.py` line 118). -/
def bsImgBad : List String :=
  ["logo", "avatar", "icon", "spinner", ".gif", "data:image"]

/-- State threaded through the document-order walk of
`scrape_with_beautifulsoup` (lines 88–124). -/
structure BSState where
  content_html : String
  short_description : String
  seen_images : List String
  main_image_url : Option String
deriving DecidableEq

/-- One iteration of the walk over a matched element. -/
def bsStep (st : BSState) (e : HNode) : BSState :=
  if e.tagName = "p" || e.tagName = "h1" || e.tagName = "h2" || e.tagName = "h3" then
    let text := getTextStrip e
    if text = "" || (text.length < 20 && e.tagName = "p") then st
    else
      let st1 :=
        if e.tagName = "p" && st.short_description = "" then
          let desc0 := if 300 < text.length then pySlice 300 text else text
          let desc := pyTrim desc0
          { st with short_description :=
              desc ++ (if 300 < text.length then "..." else "") }
        else st
      { st1 with content_html :=
          st1.content_html ++ "<" ++ e.tagName ++ ">" ++ text ++ "</" ++ e.tagName ++ ">\n\n" }
  else if e.tagName = "img" || e.tagName = "figure" then
    let imgTag :=
      if e.tagName = "img" then some e
      else (descendants e).find? (fun n => n.tagName = "img")
    match imgTag with
    | none => st
    | some img =>
      let img_src := if img.srcOf ≠ "" then img.srcOf else img.dataSrcOf
      if img_src = "" || !(startsWithS img_src ("http")) || st.seen_images.contains img_src
      then st
      else if bsImgBad.any (fun skip => containsSub (asciiLower img_src) skip) then st
      else
        { st with
          content_html := st.content_html ++ "<img src=\"" ++ img_src ++ "\">\n\n",
          seen_images := st.seen_images ++ [img_src],
          main_image_url :=
            match st.main_image_url with
            | some u => some u
            | none => some img_src }
  else st

/-- Result of one extraction strategy (the per-candidate
`ExtractionResult`; `raw_html` is attached by `scrape_article_content`). -/
structure Scraped where
  title : String
  content_html : String
  image_url : Option String
  short_description : String
  raw_html : String
deriving DecidableEq

/-- `scraper.scrape_with_beautifulsoup` on a parsed document. -/
def scrape_with_beautifulsoup (doc : List HNode) : Option Scraped :=
  let titleRaw :=
    match (descList doc).find? (fun n => n.tagName = "h1") with
    | some h => getTextStrip h
    | none => "No Title Found"
  let title := pyTrim titleRaw
  match findContainer doc with
  | none => none
  | some container =>
    let cleanedKids := stripRemoved container.childrenOf
    let elems := (descList cleanedKids).filter (fun n =>
      n.tagName = "p" || n.tagName = "h1" || n.tagName = "h2" || n.tagName = "h3" ||
      n.tagName = "img" || n.tagName = "figure")
    let st := elems.foldl bsStep
      { content_html := "", short_description := "", seen_images := [],
        main_image_url := none }
    if pyStrip st.content_html = "" then none
    else some { title := title, content_html := st.content_html,
                image_url := st.main_image_url,
                short_description := st.short_description, raw_html := "" }

/-- `scraper.scrape_with_trafilatura`.  The trafilatura library is external:
`trafOut` is the markup its `extract` call returned (`none` for a `None`
return) and `metaTitle` the metadata title, if any. -/
def scrape_with_trafilatura (trafOut : Option String) (metaTitle : Option String) :
    Option Scraped :=
  match trafOut with
  | none => none
  | some content_html =>
    if content_html = "" then none
    else
      let title0 :=
        match metaTitle with
        | some t => pyStrip t
        | none => "No Title Found"
      let title := pyTrim title0
      let cleaned_html := clean_trafilatura_html content_html
      some { title := title, content_html := cleaned_html,
             image_url := extract_main_image_from_html cleaned_html,
             short_description := extract_short_description_from_html cleaned_html,
             raw_html := "" }

/-- `scraper.scrape_article_content`.  The network fetch is external:
`fetched` is `none` on a transport failure (`requests.RequestException`),
otherwise the raw page text together with its parse. -/
def scrape_article_content (fetched : Option (String × List HNode))
    (trafOut : Option String) (metaTitle : Option String) : Option Scraped :=
  match fetched with
  | none => none
  | some (raw_html, doc) =>
    match scrape_with_beautifulsoup doc with
    | some result => some { result with raw_html := raw_html }
    | none =>
      match scrape_with_trafilatura trafOut metaTitle with
      | some result => some { result with raw_html := raw_html }
      | none => none

/-! ## The Dedup Store (`database.py`)

sqlite state is a row list plus the autoincrement counter.  `created_at`
is modelled at day granularity (`today` is the ambient clock`s current
day); rows are appended in insertion order, and `created_at` order
coincides with insertion order. -/

/-- One row of the `articles` table (`init_db`, `database.py` lines 10–20).
The schema has no image column. -/
structure Article where
  id : Nat
  original_url : String
  title : String
  original_content : Option String
  translated_content : Option String
  telegraph_url : Option String
  created_day : Nat
deriving DecidableEq

/-- The persistent store. -/
structure DB where
  rows : List Article
  nextId : Nat
  today : Nat
deriving DecidableEq

/-- `init_db` on a fresh file: empty table, autoincrement starts at 1. -/
def initDB : DB := { rows := [], nextId := 1, today := 0 }

/-- `database.article_exists`. -/
def article_exists (db : DB) (original_url : String) : Bool :=
  db.rows.any (fun a => a.original_url = original_url)

/-- `database.add_article_base` (three parameters, as defined in the
source).  A UNIQUE violation on `original_url` raises `IntegrityError`,
which the function catches, returning `None` and leaving the table
unchanged. -/
def add_article_base (db : DB) (original_url title original_content : String) :
    DB × Option Nat :=
  if db.rows.any (fun a => a.original_url = original_url) then (db, none)
  else
    ({ db with
        rows := db.rows ++
          [{ id := db.nextId, original_url := original_url, title := title,
             original_content := some original_content,
             translated_content := none, telegraph_url := none,
             created_day := db.today }],
        nextId := db.nextId + 1 },
      some db.nextId)

/-- `database.update_article_translation`. -/
def update_article_translation (db : DB) (article_id : Nat)
    (translated_content telegraph_url : String) : DB :=
  { db with rows := db.rows.map (fun a =>
      if a.id = article_id then
        { a with translated_content := some translated_content,
                 telegraph_url := some telegraph_url }
      else a) }

/-- `database.get_todays_articles_content`: contents of up to five rows of
the current day having non-null content, most recent first (`created_at`
order is insertion order in the model). -/
def get_todays_articles_content (db : DB) : List String :=
  (((db.rows.filter (fun a =>
      a.created_day = db.today && a.original_content.isSome)).reverse).take 5).filterMap
    (fun a => a.original_content)

/-- The projection returned by `database.get_article_by_id`: the `SELECT`
lists exactly `id, title, telegraph_url, translated_content`. -/
structure ArticleView where
  id : Nat
  title : String
  telegraph_url : Option String
  translated_content : Option String
deriving DecidableEq

/-- `database.get_article_by_id` (id comes from `int(...)`, hence `Int`). -/
def get_article_by_id (db : DB) (article_id : Int) : Option ArticleView :=
  (db.rows.find? (fun a => (a.id : Int) = article_id)).map (fun a =>
    { id := a.id, title := a.title, telegraph_url := a.telegraph_url,
      translated_content := a.translated_content })

/-- `article.get('image_url')` on the dictionary built by
`get_article_by_id`: the `SELECT` list has no image column, so the key is
absent and `.get` returns `None` for every article. -/
def articleGetImageUrl (_ : ArticleView) : Option String := none

/-- A store mutation issued through the `database.py` API. -/
inductive DbOp where
  | add (original_url title original_content : String)
  | updateT (article_id : Nat) (translated_content telegraph_url : String)
  | newDay (d : Nat)
deriving DecidableEq

/-- Apply one store mutation. -/
def applyDbOp (db : DB) : DbOp → DB
  | .add u t c => (add_article_base db u t c).1
  | .updateT i tc tu => update_article_translation db i tc tu
  | .newDay d => { db with today := d }

/-- Run a mutation sequence from the freshly initialised store. -/
def runDbOps (ops : List DbOp) : DB := ops.foldl applyDbOp initDB

/-- Number of rows keyed by a given `original_url`. -/
def countUrl (db : DB) (u : String) : Nat :=
  db.rows.countP (fun a => a.original_url = u)

/-! ## The Feed Poller (`rss_reader.py`)

The feed parsing library is external; a `Feed` is its output: the `bozo`
malformation flag and the entry list.  `published_parsed` is the
`struct_time` tuple, compared lexicographically; an entry lacking it gets
the default key `(0,)` (`rss_reader.py` line 27). -/

/-- One feed entry as surfaced by the parser. -/
structure FeedEntry where
  title : String
  link : String
  published_parsed : Option (List Int)
deriving DecidableEq

/-- A parsed feed. -/
structure Feed where
  bozo : Bool
  entries : List FeedEntry
deriving DecidableEq

/-- `x.get('published_parsed', (0,))`. -/
def entryKey (e : FeedEntry) : List Int := e.published_parsed.getD [0]

/-- Python tuple `<=` (lexicographic; a proper initial segment is smaller). -/
def keyLe : List Int → List Int → Bool
  | [], _ => true
  | _ :: _, [] => false
  | a :: as, b :: bs => if a < b then true else if b < a then false else keyLe as bs

/-- Insert into a descending-by-key list, after existing equal keys
(stability). -/
def insertDesc (e : FeedEntry) : List FeedEntry → List FeedEntry
  | [] => [e]
  | x :: xs => if keyLe (entryKey e) (entryKey x) then x :: insertDesc e xs else e :: x :: xs

/-- `sorted(entries, key=…, reverse=True)`: the unique stable descending
ordering (stable sorts of the same list under the same key agree, so the
insertion sort below is extensionally the library sort). -/
def sortDesc (l : List FeedEntry) : List FeedEntry :=
  l.foldl (fun acc e => insertDesc e acc) []

/-- A candidate handed to the orchestrator: title and link only. -/
structure Candidate where
  title : String
  link : String
deriving DecidableEq

/-- `rss_reader.get_latest_articles` on a parsed feed. -/
def get_latest_articles (feed : Feed) (count : Nat) : List Candidate :=
  if feed.bozo then []
  else if feed.entries.isEmpty then []
  else
    let sorted_entries := sortDesc feed.entries
    let latest_entries := sorted_entries.take count
    latest_entries.map (fun e => { title := e.title, link := e.link })

/-! ## The Orchestrator (`main.py`)

`check_news_job` drives the per-candidate state machine.  External calls
are oracle fields; the observable behaviour of a tick is the store state
plus an event trace. -/

/-- Observable events of a tick. -/
inductive Event where
  | feedFetch (feed_url : String)
  | existsCheck (url : String)
  | scrapeCall (url : String)
  | todaysQuery
  | uniqueCheck
  | translateCall
  | titleGenCall
  | telegraphCall
  | dbInsert (url : String)
  | dbUpdate (article_id : Nat)
  | moderationSend (article_id : Nat)
deriving DecidableEq

/-- A Python exception escaping a call. -/
inductive PyErr where
  | typeError
deriving DecidableEq

/-- The call `add_article_base(url, title, content, image_url)` issued by
`main.py` lines 103 and 152.  `database.add_article_base` is defined with
three positional parameters (`database.py` line 25), so Python raises
`TypeError: add_article_base() takes 3 positional arguments but 4 were
given` at the call; the function body — and hence the insert — never
runs. -/
def addArticleBase4 (_db : DB) (_url _title _content : String)
    (_image_url : Option String) : Except PyErr (DB × Option Nat) :=
  .error .typeError

/-- Per-candidate outcomes of the external calls made inside the loop of
`check_news_job`. -/
structure CandO where
  /-- Result of `scrape_article_content` (the function catches its own
  exceptions and returns `None` on any failure). -/
  scraped : Option Scraped
  /-- Verdict of `is_article_unique(content, todays)` (the function
  catches its AI errors and defaults to `True`). -/
  isUnique : String → List String → Bool
  /-- Modelled from the spec: `process_and_translate_article` is imported
  by the orchestrator but absent from the source tree; per §4.4/§7 the
  rewrite/translate step degrades to pass-through instead of raising, so
  it is a total call returning the transformed markup. -/
  processAndTranslate : String → String → String
  /-- Modelled from the spec: `generate_title_and_description` is imported
  by the orchestrator but absent from the source tree; per §2/§4.4 it
  synthesises a title and description, read with `dict.get` defaults. -/
  titleDesc : String → Option String × Option String
  /-- Result of `create_telegraph_page` (catches its own exceptions and
  returns `None` on failure). -/
  createTelegraph : String → String → Option String
  /-- Whether `send_for_moderation` succeeds (its exception is caught in
  the per-candidate `try` of `main.py` lines 174–178). -/
  moderationOk : Bool

/-- The loop body of `check_news_job` for one candidate (`main.py`
lines 54–188).  Returns the store, the event trace, and the exception, if
one escaped the body. -/
def processCandidate (db : DB) (c : Candidate) (o : CandO) :
    DB × List Event × Option PyErr :=
  if article_exists db c.link then (db, [.existsCheck c.link], none)
  else
    match o.scraped with
    | none => (db, [.existsCheck c.link, .scrapeCall c.link], none)
    | some scraped_content =>
      let todays_articles := get_todays_articles_content db
      let evs0 : List Event :=
        [.existsCheck c.link, .scrapeCall c.link, .todaysQuery, .uniqueCheck]
      if !(o.isUnique scraped_content.content_html todays_articles) then
        match addArticleBase4 db c.link c.title ("SEMANTIC_DUPLICATE_CHECKED") none with
        | .error e => (db, evs0, some e)
        | .ok (db1, _) => (db1, evs0 ++ [.dbInsert c.link], none)
      else
        let additional_context := ""
        let processed_content :=
          o.processAndTranslate scraped_content.content_html additional_context
        let title_data := o.titleDesc processed_content
        let title_with_placeholder := title_data.1.getD ("Новина")
        let description_with_placeholder := title_data.2.getD ("Цікава стаття")
        let clean_title_for_telegraph := replaceLinkAnchor title_with_placeholder
        let evs1 := evs0 ++ [.translateCall, .titleGenCall, .telegraphCall]
        match o.createTelegraph clean_title_for_telegraph processed_content with
        | none => (db, evs1, none)
        | some telegraph_url =>
          let final_title := pyReplace title_with_placeholder ("LINK_PLACEHOLDER") telegraph_url
          let final_description :=
            pyReplace description_with_placeholder ("LINK_PLACEHOLDER") telegraph_url
          let image_url := scraped_content.image_url
          match addArticleBase4 db c.link final_title processed_content image_url with
          | .error e => (db, evs1, some e)
          | .ok (db1, articleId) =>
            -- unreachable with the three-parameter `add_article_base` of
            -- `database.py`; kept for the remainder of the loop body
            match articleId with
            | none => (db1, evs1 ++ [.dbInsert c.link], none)
            | some article_id =>
              let db2 := update_article_translation db1 article_id
                processed_content telegraph_url
              let evs2 := evs1 ++ [.dbInsert c.link, .dbUpdate article_id]
              let _ := final_description
              if o.moderationOk then (db2, evs2 ++ [.moderationSend article_id], none)
              else (db2, evs2, none)

/-- The candidate loop: a body that returns normally lets the loop
`continue`; an exception escaping the body propagates to the tick-level
`except` of `main.py` line 195, skipping the remaining candidates (the
scheduler itself survives — the flag records that the tick aborted). -/
def runCandidates : DB → List (Candidate × CandO) → DB × List Event × Bool
  | db, [] => (db, [], false)
  | db, (c, o) :: rest =>
    match processCandidate db c o with
    | (db1, evs, none) =>
      let r := runCandidates db1 rest
      (r.1, evs ++ r.2.1, r.2.2)
    | (db1, evs, some _) => (db1, evs, true)

/-- `check_news_job`.  `locked` is the state of the process-wide
`processing_lock` at invocation: `asyncio.Lock.locked()` is checked first
and, between that check and the `async with` acquisition, the coroutine
never yields, so an invocation arriving while a tick is in flight sees
`locked = true` and returns at once.  Oracles are indexed by candidate
position. -/
def check_news_job (locked : Bool) (feeds : List (String × Feed)) (count : Nat)
    (db : DB) (o : Nat → CandO) : DB × List Event :=
  if locked then (db, [])
  else
    let fetchEvs := feeds.map (fun fu => Event.feedFetch fu.1)
    let articles := (feeds.map (fun fu => get_latest_articles fu.2 count)).flatten
    if articles.isEmpty then (db, fetchEvs)
    else
      let withO := articles.enum.map (fun ic => (ic.2, o ic.1))
      let r := runCandidates db withO
      (r.1, fetchEvs ++ r.2.1)

/-! ## The Moderation Gateway (`telegram_bot.py`)

`handle_publish_callback` reacts to an inbound approval event.  The bot
transport and webhook endpoint are external: their outcomes are oracle
fields, and the handler's observable output is the set of messages it
sends or edits. -/

/-- The inbound approval event. -/
structure CbInput where
  /-- `query.data`. -/
  callback_data : String
  /-- `query.message.text_html`, the rendered draft. -/
  draft_text_html : String
  /-- `none` if `query.answer()` succeeded, otherwise the exception text. -/
  answerErr : Option String
deriving DecidableEq

/-- External-call outcomes for one approval event. -/
structure CbOracle where
  /-- Whether `bot.send_message` to the public channel succeeds. -/
  sendOk : Bool
  /-- `sent_message.chat.username`. -/
  chatUsername : Option String
  /-- `sent_message.chat.id`. -/
  chatId : Int
  /-- `sent_message.message_id`. -/
  messageId : Nat
  /-- Modelled from the spec: `generate_facebook_post` is imported from
  `ai_handler` but absent from the source tree; per §4.5 it derives a
  social post body from the stored rewritten content. -/
  facebookPost : Option String → String
  /-- Whether `query.edit_message_text` succeeds (failures are logged and
  swallowed). -/
  editOk : Bool

/-- The JSON body posted to the outbound webhook (`telegram_bot.py`
lines 122–131): `image_url` is attached only when truthy. -/
structure WebhookPayload where
  facebook_post : String
  telegram_post_url : String
  image_url : Option String
deriving DecidableEq

/-- Observable output of the handler. -/
structure CbEffects where
  /-- Texts posted to the public channel. -/
  publicPosts : List String
  /-- Texts written over the draft by `edit_message_text`. -/
  draftEdits : List String
  /-- Webhook deliveries attempted. -/
  webhookPayloads : List WebhookPayload
deriving DecidableEq

/-- A draft line removed before publication: it contains both the anchor
opener and the source label (`telegram_bot.py` line 82). -/
def isFooterLine (line : String) : Bool :=
  containsSub line ("<a href=") && containsSub line ("Джерело</a>")

/-- The published text: the draft, minus every source-footer line, joined
and stripped (`telegram_bot.py` lines 77–86). -/
def publishTextOf (draft : String) : String :=
  let lines := pySplitNL draft
  let filtered_lines := lines.filter (fun line => !(isFooterLine line))
  pyStrip (String.intercalate ("\n") filtered_lines)

/-- `telegram_bot.handle_publish_callback`. -/
def handle_publish_callback (db : DB) (makeWebhookUrl : Option String)
    (inp : CbInput) (o : CbOracle) : CbEffects :=
  let proceed :=
    match inp.answerErr with
    | none => true
    | some msg => containsSub msg ("too old") || containsSub msg ("timeout expired")
  if !proceed then { publicPosts := [], draftEdits := [], webhookPayloads := [] }
  else if !(startsWithS inp.callback_data ("pub_")) then
    { publicPosts := [], draftEdits := [], webhookPayloads := [] }
  else
    match pyInt (pyReplace inp.callback_data ("pub_") ("")) with
    | none =>
      -- `int(...)` raised ValueError
      { publicPosts := [],
        draftEdits :=
          if o.editOk then
            [inp.draft_text_html ++ "\n\n<b>❌ Помилка: невірний ID статті</b>"]
          else [],
        webhookPayloads := [] }
    | some article_id =>
      let article := get_article_by_id db article_id
      match article with
      | none =>
        { publicPosts := [],
          draftEdits :=
            if o.editOk then
              [inp.draft_text_html ++ "\n\n<b>❌ Помилка: стаття не знайдена</b>"]
            else [],
          webhookPayloads := [] }
      | some art =>
        if art.telegraph_url.getD ("") = "" then
          -- `not article.get('telegraph_url')`: absent or empty URL
          { publicPosts := [],
            draftEdits :=
              if o.editOk then
                [inp.draft_text_html ++ "\n\n<b>❌ Помилка: стаття не знайдена</b>"]
              else [],
            webhookPayloads := [] }
        else
          let publish_text := publishTextOf inp.draft_text_html
          if !o.sendOk then
            -- `send_message` raised; the outer `except` annotates the draft
            { publicPosts := [],
              draftEdits :=
                if o.editOk then
                  [inp.draft_text_html ++ "\n\n<b>❌ Помилка публікації</b>"]
                else [],
              webhookPayloads := [] }
          else
            let payloads :=
              match makeWebhookUrl with
              | none => []
              | some _ =>
                let post_url :=
                  match o.chatUsername with
                  | some u => "https://t.me/" ++ u ++ "/" ++ toString o.messageId
                  | none =>
                    "https://t.me/c/" ++
                      (pyReplace (toString o.chatId) ("-100") ("")) ++ "/" ++
                      toString o.messageId
                let facebook_post_text := o.facebookPost art.translated_content
                let image_url :=
                  match articleGetImageUrl art with
                  | some u => if u = "" then none else some u
                  | none => none
                [{ facebook_post := facebook_post_text,
                   telegram_post_url := post_url, image_url := image_url }]
            { publicPosts := [publish_text],
              draftEdits :=
                if o.editOk then
                  [inp.draft_text_html ++ "\n\n<b>✅ Опубліковано</b>"]
                else [],
              webhookPayloads := payloads }

/-! ## Supporting lemmas -/

theorem toList_mk (l : List Char) : (String.mk l).toList = l := rfl

theorem mk_toList (s : String) : String.mk s.toList = s := rfl

theorem head_dropWhile_not {α : Type} (p : α → Bool) :
    ∀ (l : List α) (c : α), (l.dropWhile p).head? = some c → p c = false := by
  intro l
  induction l with
  | nil => intro c h; simp at h
  | cons a t ih =>
    intro c h
    rw [List.dropWhile_cons] at h
    by_cases hpa : p a = true
    · rw [if_pos hpa] at h; exact ih c h
    · rw [if_neg hpa] at h
      simp at h
      rw [← h]
      simpa using hpa

theorem dropWhile_eq_self_of_head {α : Type} (p : α → Bool) (l : List α)
    (h : ∀ c, l.head? = some c → p c = false) : l.dropWhile p = l := by
  cases l with
  | nil => rfl
  | cons a t =>
    rw [List.dropWhile_cons, if_neg]
    rw [h a rfl]
    simp

theorem rstripOn_eq_self (p : Char → Bool) (l : List Char)
    (h : ∀ c, l.getLast? = some c → p c = false) : rstripOn p l = l := by
  unfold rstripOn
  rw [dropWhile_eq_self_of_head p l.reverse, List.reverse_reverse]
  intro c hc
  rw [List.head?_reverse] at hc
  exact h c hc

theorem getLast_rstripOn_not (p : Char → Bool) (l : List Char) (c : Char)
    (h : (rstripOn p l).getLast? = some c) : p c = false := by
  unfold rstripOn at h
  rw [List.getLast?_reverse] at h
  exact head_dropWhile_not p l.reverse c h

theorem head_rstripOn (p : Char → Bool) (l : List Char) :
    rstripOn p l = [] ∨ (rstripOn p l).head? = l.head? := by
  have hsuf : (l.reverse.dropWhile p) <:+ l.reverse := List.dropWhile_suffix p
  have hpre : rstripOn p l <+: l := by
    unfold rstripOn
    have := List.reverse_prefix.mpr hsuf
    rwa [List.reverse_reverse] at this
  rcases hpre with ⟨t, ht⟩
  cases hr : rstripOn p l with
  | nil => exact Or.inl rfl
  | cons a m =>
    right
    rw [hr] at ht
    rw [← ht]
    rfl

/-- The character list of the trimmed string, unfolded once. -/
theorem pyTrim_toList (s : String) :
    (pyTrim s).toList =
      rstripOn isPyWsC ((rstripOn (fun c => punctChars.contains c) s.toList).dropWhile isPyWsC) := rfl

/-- A string whose ends carry neither trimmed punctuation nor whitespace is
a fixed point of the trimming operation. -/
theorem pyTrim_eq_self (t : String)
    (hp : ∀ c, t.toList.getLast? = some c → punctChars.contains c = false)
    (hwsLast : ∀ c, t.toList.getLast? = some c → isPyWsC c = false)
    (hwsHead : ∀ c, t.toList.head? = some c → isPyWsC c = false) :
    pyTrim t = t := by
  have h1 : rstripOn (fun c => punctChars.contains c) t.toList = t.toList :=
    rstripOn_eq_self _ _ hp
  have h2 : List.dropWhile isPyWsC t.toList = t.toList :=
    dropWhile_eq_self_of_head _ _ hwsHead
  have h3 : rstripOn isPyWsC t.toList = t.toList := rstripOn_eq_self _ _ hwsLast
  show String.mk (rstripOn isPyWsC (List.dropWhile isPyWsC
    (String.mk (rstripOn (fun c => punctChars.contains c) t.toList)).toList)) = t
  rw [toList_mk, h1, h2, h3]
  exact mk_toList t

theorem pyTrim_fix (s : String) (h : endsPunct (pyTrim s) = false) :
    pyTrim (pyTrim s) = pyTrim s := by
  have hlast_ws : ∀ c, (pyTrim s).toList.getLast? = some c → isPyWsC c = false := by
    intro c hc
    rw [pyTrim_toList] at hc
    exact getLast_rstripOn_not _ _ _ hc
  have hlast_p : ∀ c, (pyTrim s).toList.getLast? = some c →
      punctChars.contains c = false := by
    intro c hc
    unfold endsPunct at h
    rw [hc] at h
    exact h
  have hhead_ws : (pyTrim s).toList = [] ∨
      ∀ c, (pyTrim s).toList.head? = some c → isPyWsC c = false := by
    rw [pyTrim_toList]
    rcases head_rstripOn isPyWsC
        ((rstripOn (fun c => punctChars.contains c) s.toList).dropWhile isPyWsC) with hnil | hh
    · exact Or.inl hnil
    · right
      intro c hc
      rw [hh] at hc
      exact head_dropWhile_not isPyWsC _ c hc
  rcases hhead_ws with hnil | hhead
  · have hempty : pyTrim s = "" := by
      rw [← mk_toList (pyTrim s), hnil]
    rw [hempty]
    rfl
  · exact pyTrim_eq_self (pyTrim s) hlast_p hlast_ws hhead

/-- Claim C7 counterexample: the trimming operation is not idempotent as
stated.  `"a. "` trims to `"a."` (the trailing space shielded the dot from
`rstrip`, and `strip` then exposed it); a second application trims to
`"a"`.  So there is an already-trimmed string that the operation changes. -/
theorem c7_trim_not_idempotent_cex :
    pyTrim ("a. ") = "a." ∧ pyTrim (pyTrim ("a. ")) = "a" ∧
      pyTrim (pyTrim ("a. ")) ≠ pyTrim ("a. ") := by
  refine ⟨by decide, by decide, by decide⟩

/-- Claim C7 (amended): the trimming operation
`s.rstrip('.,;:!?-–—').strip()` of `scraper.py`/`ai_handler.py` is
idempotent on every trimmed string that does not end in a punctuation
character; removing whitespace can expose new trailing punctuation, and
only on such strings does a second application strip further. -/
theorem c7_trim_idem_amended (s : String) (h : endsPunct (pyTrim s) = false) :
    pyTrim (pyTrim s) = pyTrim s :=
  pyTrim_fix s h

theorem c7_trim_idem_amended_witness :
    endsPunct (pyTrim ("ab ")) = false ∧ pyTrim (pyTrim ("ab ")) = pyTrim ("ab ") :=
  ⟨by decide, c7_trim_idem_amended ("ab ") (by decide)⟩

/-! ## Concrete fixtures used by closed theorems -/

/-- A successfully scraped page. -/
def scFix : Scraped :=
  { title := "T", content_html := "<p>x</p>", image_url := none,
    short_description := "", raw_html := "" }

/-- A fresh candidate. -/
def candA : Candidate := { title := "t1", link := "http://e.x/a" }

/-- A second fresh candidate. -/
def candB : Candidate := { title := "t2", link := "http://e.x/b" }

/-- Oracle: scrape succeeds, the AI judges the article a semantic
duplicate. -/
def oracleDup : CandO where
  scraped := some scFix
  isUnique := fun _ _ => false
  processAndTranslate := fun c _ => c
  titleDesc := fun _ => (none, none)
  createTelegraph := fun _ _ => some ("https://telegra.ph/p")
  moderationOk := true

/-- Oracle: scrape succeeds, the AI judges the article unique. -/
def oracleFresh : CandO := { oracleDup with isUnique := fun _ _ => true }

/-- Oracle: the scrape fails (both strategies empty or transport error). -/
def oracleNoScrape : CandO := { oracleFresh with scraped := none }

/-! ## Claim C1 -/

/-- Claim C1 (code bug): on a duplicate verdict, `main.py` line 103 calls
`add_article_base(link, title, "SEMANTIC_DUPLICATE_CHECKED", None)` with
four arguments, but `database.py` line 25 defines the function with three
parameters, so the call raises `TypeError` before any insert: the run
aborts with the exception, the store is unchanged — no row with the
sentinel content exists — and no Telegraph (hosting) call occurs.  The
claim (and the code's own comment) say a sentinel row is inserted. -/
theorem c1_semantic_duplicate_no_sentinel_row :
    processCandidate initDB candA oracleDup =
      (initDB,
        [.existsCheck ("http://e.x/a"), .scrapeCall ("http://e.x/a"),
         .todaysQuery, .uniqueCheck],
        some .typeError) ∧
    countUrl (processCandidate initDB candA oracleDup).1 ("http://e.x/a") = 0 ∧
    Event.telegraphCall ∉ (processCandidate initDB candA oracleDup).2.1 := by
  refine ⟨by decide, by decide, by decide⟩

/-! ## Claim C2 -/

/-- Claim C2 counterexample: with a batch of two candidates where the
first raises an exception (the `TypeError` from the four-argument
`add_article_base` call on the duplicate path), the tick-level `except`
of `main.py` line 195 ends the loop: the second candidate is never
examined — no existence check and no scrape happen for it — contradicting
the claim that every remaining candidate of the batch is still
processed. -/
theorem c2_exception_aborts_batch_cex :
    runCandidates initDB [(candA, oracleDup), (candB, oracleFresh)] =
      (initDB,
        [.existsCheck ("http://e.x/a"), .scrapeCall ("http://e.x/a"),
         .todaysQuery, .uniqueCheck],
        true) ∧
    Event.existsCheck ("http://e.x/b") ∉
      (runCandidates initDB [(candA, oracleDup), (candB, oracleFresh)]).2.1 ∧
    Event.scrapeCall ("http://e.x/b") ∉
      (runCandidates initDB [(candA, oracleDup), (candB, oracleFresh)]).2.1 := by
  refine ⟨by decide, by decide, by decide⟩

/-- Claim C2 (amended): a stage failure signalled by a falsy return —
a failed scrape or a failed Telegraph page creation — aborts only the
current candidate (`continue`), leaving the store unchanged, and the loop
then processes the remaining candidates of the batch; but an exception
raised while processing a candidate is caught only by the tick-level
handler, so the remaining candidates of that batch are skipped (the
scheduler itself survives, as the counterexample shows). -/
theorem c2_failure_isolation_amended :
    (∀ db c o rest db1 evs, processCandidate db c o = (db1, evs, none) →
      runCandidates db ((c, o) :: rest) =
        ((runCandidates db1 rest).1, evs ++ (runCandidates db1 rest).2.1,
          (runCandidates db1 rest).2.2)) ∧
    (∀ db c o, o.scraped = none → article_exists db c.link = false →
      processCandidate db c o =
        (db, [.existsCheck c.link, .scrapeCall c.link], none)) ∧
    (∀ db c o sc, o.scraped = some sc → article_exists db c.link = false →
      o.isUnique sc.content_html (get_todays_articles_content db) = true →
      o.createTelegraph
        (replaceLinkAnchor
          ((o.titleDesc (o.processAndTranslate sc.content_html "")).1.getD ("Новина")))
        (o.processAndTranslate sc.content_html "") = none →
      processCandidate db c o =
        (db, [.existsCheck c.link, .scrapeCall c.link, .todaysQuery, .uniqueCheck,
              .translateCall, .titleGenCall, .telegraphCall], none)) := by
  refine ⟨?_, ?_, ?_⟩
  · intro db c o rest db1 evs h
    simp only [runCandidates, h]
  · intro db c o hs he
    simp only [processCandidate, he, hs]
    simp
  · intro db c o sc hs he hu ht
    simp only [processCandidate, he, hs, hu, ht]
    simp

theorem c2_failure_isolation_amended_witness :
    oracleNoScrape.scraped = none ∧
    article_exists initDB candB.link = false ∧
    processCandidate initDB candB oracleNoScrape =
      (initDB, [.existsCheck ("http://e.x/b"), .scrapeCall ("http://e.x/b")], none) :=
  ⟨rfl, by decide,
    c2_failure_isolation_amended.2.1 initDB candB oracleNoScrape rfl (by decide)⟩

/-! ## Claim C5 -/

/-- Claim C5 (confirmed): an invocation of `check_news_job` arriving while
a tick holds `processing_lock` returns at once with no effect — no feed
fetch, no store access, and no candidate processing appear in its trace,
and the store is untouched — while an invocation taking the lock runs the
tick body (its first action is the first feed fetch).  Between the
`locked()` test and the lock acquisition the coroutine never yields, so
of two overlapping invocations at most one executes the body. -/
theorem c5_single_flight :
    (∀ feeds count db o, check_news_job true feeds count db o = (db, [])) ∧
    (∀ f fs count db o,
      ((check_news_job false (f :: fs) count db o).2).head? =
        some (.feedFetch f.1)) := by
  constructor
  · intro feeds count db o
    simp [check_news_job]
  · intro f fs count db o
    simp only [check_news_job, Bool.false_eq_true, if_false, List.map_cons]
    split
    · rfl
    · simp

/-! ## Claim C6 -/

/-- Per-URL uniqueness of the store. -/
def UniqueUrls (db : DB) : Prop := ∀ u, countUrl db u ≤ 1

theorem countUrl_eq_zero (db : DB) (u : String)
    (h : article_exists db u = false) : countUrl db u = 0 := by
  unfold countUrl
  rw [List.countP_eq_zero]
  intro a ha hpa
  unfold article_exists at h
  have : db.rows.any (fun a => a.original_url = u) = true := by
    rw [List.any_eq_true]
    exact ⟨a, ha, hpa⟩
  rw [this] at h
  exact Bool.noConfusion h

theorem countUrl_add (db : DB) (u t c u' : String) :
    countUrl (add_article_base db u t c).1 u' =
      if article_exists db u = true then countUrl db u'
      else countUrl db u' + (if u = u' then 1 else 0) := by
  unfold countUrl add_article_base article_exists
  by_cases hex : db.rows.any (fun a => a.original_url = u) = true
  · simp [hex]
  · simp only [hex, Bool.false_eq_true, if_false]
    rw [List.countP_append]
    congr 1
    simp [List.countP_cons]

theorem add_article_base_preserves (db : DB) (u t c : String)
    (h : UniqueUrls db) : UniqueUrls (add_article_base db u t c).1 := by
  intro u'
  rw [countUrl_add]
  by_cases hex : article_exists db u = true
  · rw [if_pos hex]
    exact h u'
  · rw [if_neg hex]
    by_cases heq : u = u'
    · rw [if_pos heq]
      have h0 : countUrl db u' = 0 := by
        rw [← heq]
        exact countUrl_eq_zero db u (Bool.eq_false_iff.mpr hex)
      omega
    · rw [if_neg heq]
      simpa using h u'

theorem update_preserves (db : DB) (i : Nat) (tc tu : String)
    (h : UniqueUrls db) : UniqueUrls (update_article_translation db i tc tu) := by
  intro u
  unfold update_article_translation countUrl
  simp only [List.countP_map]
  have hcong : List.countP
      ((fun a => decide (a.original_url = u)) ∘ (fun a =>
        if a.id = i then
          { a with translated_content := some tc, telegraph_url := some tu }
        else a)) db.rows =
      List.countP (fun a => decide (a.original_url = u)) db.rows := by
    apply List.countP_congr
    intro a _
    by_cases hid : a.id = i <;> simp [hid]
  rw [hcong]
  exact h u

theorem applyDbOp_preserves (db : DB) (op : DbOp) (h : UniqueUrls db) :
    UniqueUrls (applyDbOp db op) := by
  cases op with
  | add u t c => exact add_article_base_preserves db u t c h
  | updateT i tc tu => exact update_preserves db i tc tu h
  | newDay d => exact h

theorem foldl_preserves (ops : List DbOp) :
    ∀ db, UniqueUrls db → UniqueUrls (ops.foldl applyDbOp db) := by
  induction ops with
  | nil => intro db h; exact h
  | cons op rest ih =>
    intro db h
    exact ih (applyDbOp db op) (applyDbOp_preserves db op h)

/-- Claim C6 (confirmed): starting from the freshly initialised store,
after any sequence of store operations — hence after any number of ticks
and any number of appearances of a URL across feed batches — at most one
row is keyed by each `original_url`; and inserting an already-present URL
leaves the store unchanged and returns no id (the `IntegrityError` is
caught inside `add_article_base`, so nothing is raised to the caller). -/
theorem c6_url_unique :
    (∀ ops u, countUrl (runDbOps ops) u ≤ 1) ∧
    (∀ ops u t c, article_exists (runDbOps ops) u = true →
      add_article_base (runDbOps ops) u t c = (runDbOps ops, none)) := by
  constructor
  · intro ops u
    exact foldl_preserves ops initDB (fun u' => by simp [countUrl, initDB]) u
  · intro ops u t c h
    unfold add_article_base
    unfold article_exists at h
    simp only [h, if_true]

theorem c6_url_unique_witness :
    article_exists (runDbOps [.add ("u") ("t") ("c"), .add ("u") ("t2") ("c2")]) ("u") = true ∧
    add_article_base (runDbOps [.add ("u") ("t") ("c"), .add ("u") ("t2") ("c2")])
        ("u") ("t3") ("c3") =
      (runDbOps [.add ("u") ("t") ("c"), .add ("u") ("t2") ("c2")], none) :=
  ⟨by decide,
    c6_url_unique.2 [.add ("u") ("t") ("c"), .add ("u") ("t2") ("c2")]
      ("u") ("t3") ("c3") (by decide)⟩

/-! ## Claim C3 -/

/-- Claim C3 counterexample: the fallback strategy can mark extraction
successful with empty normalized content.  With a page the primary
strategy rejects and a trafilatura output of `"<p> </p>"` (non-empty, so
the `if not content_html` guard passes), `clean_trafilatura_html` deletes
the whitespace-only paragraph and the returned result carries
`content_html = ""`. -/
theorem c3_fallback_empty_content_cex :
    (scrape_article_content (some (("x"), [])) (some ("<p> </p>")) none).map
        (fun r => r.content_html) = some ("") ∧
    (some ("<p> </p>") : Option String) ≠ none := by
  refine ⟨by decide, by decide⟩

/-- Claim C3 (amended): the primary strategy never returns success with
(whitespace-stripped) empty content; the fallback strategy guarantees only
that the raw trafilatura markup was non-empty — its cleaned content, which
is what the result carries, can be empty; when both strategies fail the
extractor returns nothing and the candidate is skipped with the store
untouched and no insert, so no row is written for that URL in that
tick. -/
theorem c3_extraction_amended :
    (∀ doc r, scrape_with_beautifulsoup doc = some r →
      ¬(pyStrip r.content_html = "")) ∧
    (∀ trafOut metaTitle r, scrape_with_trafilatura trafOut metaTitle = some r →
      ∃ s, trafOut = some s ∧ s ≠ "" ∧ r.content_html = clean_trafilatura_html s) ∧
    (∀ raw doc trafOut metaTitle, scrape_with_beautifulsoup doc = none →
      scrape_with_trafilatura trafOut metaTitle = none →
      scrape_article_content (some (raw, doc)) trafOut metaTitle = none) ∧
    (∀ db c o, o.scraped = none →
      (processCandidate db c o).1 = db ∧
        Event.dbInsert c.link ∉ (processCandidate db c o).2.1) := by
  refine ⟨?_, ?_, ?_, ?_⟩
  · intro doc r h
    unfold scrape_with_beautifulsoup at h
    cases hf : findContainer doc with
    | none => rw [hf] at h; exact absurd h (by simp)
    | some container =>
      rw [hf] at h
      dsimp only at h
      split at h
      · exact absurd h (by simp)
      · rename_i hcond
        injection h with h'
        rw [← h']
        exact hcond
  · intro trafOut metaTitle r h
    unfold scrape_with_trafilatura at h
    cases trafOut with
    | none => exact absurd h (by simp)
    | some s =>
      dsimp only at h
      split at h
      · exact absurd h (by simp)
      · rename_i hne
        injection h with h'
        exact ⟨s, rfl, hne, by rw [← h']⟩
  · intro raw doc trafOut metaTitle h1 h2
    unfold scrape_article_content
    dsimp only
    rw [h1]
    dsimp only
    rw [h2]
  · intro db c o hs
    unfold processCandidate
    rw [hs]
    by_cases he : article_exists db c.link = true
    · simp [he]
    · simp [he]

theorem c3_extraction_amended_witness :
    scrape_with_beautifulsoup
        [HNode.elem ("article") ("") ("") ("") ("")
          [HNode.elem ("p") ("") ("") ("") ("")
            [HNode.text ("This paragraph has more than twenty characters.")]]] =
      some { title := "No Title Found",
             content_html := "<p>This paragraph has more than twenty characters.</p>\n\n",
             image_url := none,
             short_description := "This paragraph has more than twenty characters",
             raw_html := "" } ∧
    ¬(pyStrip ("<p>This paragraph has more than twenty characters.</p>\n\n") = "") :=
  ⟨by decide,
    c3_extraction_amended.1
      [HNode.elem ("article") ("") ("") ("") ("")
        [HNode.elem ("p") ("") ("") ("") ("")
          [HNode.text ("This paragraph has more than twenty characters.")]]]
      { title := "No Title Found",
        content_html := "<p>This paragraph has more than twenty characters.</p>\n\n",
        image_url := none,
        short_description := "This paragraph has more than twenty characters",
        raw_html := "" }
      (by decide)⟩

/-! ## Claim C8 -/

theorem pySlice_of_le (n : Nat) (s : String) (h : s.length ≤ n) :
    pySlice n s = s := by
  unfold pySlice
  have h2 : s.toList.length ≤ n := h
  rw [List.take_of_length_le h2]
  exact mk_toList s

/-- Claim C8 counterexample: a heading shorter than the minimum length is
not dropped.  The guard of `scraper.py` line 97 applies the
`len(text) < 20` test only when `element.name == 'p'`; an `h2` whose text
`"Short head"` has 10 characters is kept and becomes the whole content,
although the claim says every heading below the minimum length is dropped
as boilerplate (which would leave the content empty here). -/
theorem c8_short_heading_kept_cex :
    (scrape_with_beautifulsoup
        [HNode.elem ("article") ("") ("") ("") ("")
          [HNode.elem ("h2") ("") ("") ("") ("") [HNode.text ("Short head")]]]).map
      (fun r => r.content_html) = some ("<h2>Short head</h2>\n\n") ∧
    ("Short head").length < 20 := by
  refine ⟨by decide, by decide⟩

/-- Claim C8 (amended): in the document-order walk, a paragraph whose text
is shorter than the minimum length (20) is dropped, while a heading is
dropped only when its text is empty; the first paragraph of length at
least 20 — if the description is still unset — yields the short
description: its text truncated to 300 characters with trailing
punctuation stripped, plus an ellipsis when truncation happened; once set
the description never changes, so it comes from the first qualifying
paragraph. -/
theorem c8_walk_amended :
    (∀ st e, e.tagName = "p" → (getTextStrip e).length < 20 → bsStep st e = st) ∧
    (∀ st e, (e.tagName = "h1" ∨ e.tagName = "h2" ∨ e.tagName = "h3") →
      getTextStrip e = "" → bsStep st e = st) ∧
    (∀ st e, e.tagName = "p" → st.short_description = "" →
      20 ≤ (getTextStrip e).length →
      (bsStep st e).short_description =
        pyTrim (pySlice 300 (getTextStrip e)) ++
          (if 300 < (getTextStrip e).length then "..." else "")) ∧
    (∀ st e, st.short_description ≠ "" →
      (bsStep st e).short_description = st.short_description) := by
  refine ⟨?_, ?_, ?_, ?_⟩
  · intro st e htag hlen
    unfold bsStep
    rw [htag]
    simp [hlen]
  · intro st e htag htext
    unfold bsStep
    rcases htag with h | h | h <;> rw [h] <;> simp [htext]
  · intro st e htag hdesc hlen
    have hne : getTextStrip e ≠ "" := by
      intro hcontra
      rw [hcontra] at hlen
      simp at hlen
    unfold bsStep
    rw [htag]
    simp only [hdesc]
    by_cases h300 : 300 < (getTextStrip e).length
    · simp [hne, h300, Nat.not_lt.mpr hlen]
    · have hsl : pySlice 300 (getTextStrip e) = getTextStrip e :=
        pySlice_of_le 300 (getTextStrip e) (Nat.not_lt.mp h300)
      simp [hne, h300, Nat.not_lt.mpr hlen, hsl]
  · intro st e hdesc
    unfold bsStep
    by_cases hp : (e.tagName = "p" || e.tagName = "h1" || e.tagName = "h2" ||
        e.tagName = "h3") = true
    · rw [hp]
      simp only [if_true]
      by_cases hdrop : (getTextStrip e = "" ||
          (decide ((getTextStrip e).length < 20) && decide (e.tagName = "p"))) = true
      · simp [hdrop]
      · simp only [Bool.not_eq_true] at hdrop
        simp only [hdrop, Bool.false_eq_true, if_false]
        by_cases hsd : (e.tagName = "p" && st.short_description = "") = true
        · simp only [Bool.and_eq_true, decide_eq_true_eq] at hsd
          exact absurd hsd.2 hdesc
        · simp only [Bool.not_eq_true] at hsd
          simp [hsd]
    · simp only [Bool.not_eq_true] at hp
      simp only [hp, Bool.false_eq_true, if_false]
      by_cases hi : (e.tagName = "img" || e.tagName = "figure") = true
      · simp only [hi, if_true]
        cases himg : (if e.tagName = "img" then some e
            else (descendants e).find? (fun n => n.tagName = "img")) with
        | none => simp
        | some img =>
          dsimp only
          repeat' split
          all_goals rfl
      · simp only [Bool.not_eq_true] at hi
        simp [hi]

theorem c8_walk_amended_witness :
    (HNode.elem ("p") ("") ("") ("") ("")
        [HNode.text ("tiny")]).tagName = "p" ∧
    (getTextStrip (HNode.elem ("p") ("") ("") ("") ("") [HNode.text ("tiny")])).length < 20 ∧
    bsStep { content_html := "", short_description := "", seen_images := [],
             main_image_url := none }
        (HNode.elem ("p") ("") ("") ("") ("") [HNode.text ("tiny")]) =
      { content_html := "", short_description := "", seen_images := [],
        main_image_url := none } :=
  ⟨rfl, by decide,
    c8_walk_amended.1
      { content_html := "", short_description := "", seen_images := [],
        main_image_url := none }
      (HNode.elem ("p") ("") ("") ("") ("") [HNode.text ("tiny")])
      rfl (by decide)⟩

/-! ## Claims C4 and C10 -/

/-- A store holding one fully processed (hosted) article with id 1,
reached through the store API itself. -/
def dbHosted : DB :=
  update_article_translation
    (add_article_base initDB ("http://e.x/a") ("t") ("c")).1 1
    ("tc") ("https://telegra.ph/x-1")

/-- An approval event for article 1 whose draft text does not mention the
hosted URL. -/
def inpPlain : CbInput :=
  { callback_data := "pub_1", draft_text_html := "Новина", answerErr := none }

/-- Transport oracle: everything succeeds; the public channel is private
(no username). -/
def oracleBot : CbOracle where
  sendOk := true
  chatUsername := none
  chatId := -100123
  messageId := 5
  facebookPost := fun _ => "fb"
  editOk := true

/-- Claim C4 counterexample: for a known article id whose record has a
hosted URL, the handler posts exactly one message, but its text is just
the draft minus footer lines — the handler never injects the hosted URL,
so when the draft does not carry it the public post does not contain it,
contrary to the claim. -/
theorem c4_post_lacks_hosted_url_cex :
    get_article_by_id dbHosted 1 =
      some { id := 1, title := "t",
             telegraph_url := some ("https://telegra.ph/x-1"),
             translated_content := some ("tc") } ∧
    (handle_publish_callback dbHosted none inpPlain oracleBot).publicPosts =
      ["Новина"] ∧
    containsSub ("Новина") ("https://telegra.ph/x-1") = false := by
  refine ⟨by decide, by decide, by decide⟩

/-- Claim C4 (amended): an approval event for a known article id with a
(non-empty) hosted URL produces exactly one public-surface post whose text
is the draft with every source-footer line (any line containing both the
anchor opener and the source label, in particular the trailing one)
removed — it therefore contains the hosted URL only when the draft itself
carries it outside the footer — and the draft is annotated with a success
suffix; an approval event whose id is unknown, unparsable, or whose record
has no hosted URL produces no public post and an error annotation on the
draft. -/
theorem c4_approval_amended :
    (∀ db mk inp o i art, inp.answerErr = none →
      startsWithS inp.callback_data ("pub_") = true →
      pyInt (pyReplace inp.callback_data ("pub_") ("")) = some i →
      get_article_by_id db i = some art →
      ¬(art.telegraph_url.getD ("") = "") →
      o.sendOk = true →
      (handle_publish_callback db mk inp o).publicPosts =
          [publishTextOf inp.draft_text_html] ∧
        (handle_publish_callback db mk inp o).draftEdits =
          (if o.editOk then
            [inp.draft_text_html ++ "\n\n<b>✅ Опубліковано</b>"]
          else [])) ∧
    (∀ db mk inp o i, inp.answerErr = none →
      startsWithS inp.callback_data ("pub_") = true →
      pyInt (pyReplace inp.callback_data ("pub_") ("")) = some i →
      get_article_by_id db i = none →
      (handle_publish_callback db mk inp o).publicPosts = [] ∧
        (handle_publish_callback db mk inp o).draftEdits =
          (if o.editOk then
            [inp.draft_text_html ++ "\n\n<b>❌ Помилка: стаття не знайдена</b>"]
          else [])) ∧
    (∀ db mk inp o i art, inp.answerErr = none →
      startsWithS inp.callback_data ("pub_") = true →
      pyInt (pyReplace inp.callback_data ("pub_") ("")) = some i →
      get_article_by_id db i = some art →
      art.telegraph_url.getD ("") = "" →
      (handle_publish_callback db mk inp o).publicPosts = [] ∧
        (handle_publish_callback db mk inp o).draftEdits =
          (if o.editOk then
            [inp.draft_text_html ++ "\n\n<b>❌ Помилка: стаття не знайдена</b>"]
          else [])) ∧
    (∀ db mk inp o, inp.answerErr = none →
      startsWithS inp.callback_data ("pub_") = true →
      pyInt (pyReplace inp.callback_data ("pub_") ("")) = none →
      (handle_publish_callback db mk inp o).publicPosts = [] ∧
        (handle_publish_callback db mk inp o).draftEdits =
          (if o.editOk then
            [inp.draft_text_html ++ "\n\n<b>❌ Помилка: невірний ID статті</b>"]
          else [])) := by
  refine ⟨?_, ?_, ?_, ?_⟩
  · intro db mk inp o i art hAns hStart hInt hArt hTel hSend
    refine ⟨?_, ?_⟩ <;>
      simp [handle_publish_callback, hAns, hStart, hInt, hArt, hTel, hSend]
  · intro db mk inp o i hAns hStart hInt hArt
    refine ⟨?_, ?_⟩ <;>
      simp [handle_publish_callback, hAns, hStart, hInt, hArt]
  · intro db mk inp o i art hAns hStart hInt hArt hTel
    refine ⟨?_, ?_⟩ <;>
      simp [handle_publish_callback, hAns, hStart, hInt, hArt, hTel]
  · intro db mk inp o hAns hStart hInt
    refine ⟨?_, ?_⟩ <;>
      simp [handle_publish_callback, hAns, hStart, hInt]

theorem c4_approval_amended_witness :
    inpPlain.answerErr = none ∧
    startsWithS inpPlain.callback_data ("pub_") = true ∧
    pyInt (pyReplace inpPlain.callback_data ("pub_") ("")) = some 1 ∧
    get_article_by_id dbHosted 1 =
      some { id := 1, title := "t",
             telegraph_url := some ("https://telegra.ph/x-1"),
             translated_content := some ("tc") } ∧
    (handle_publish_callback dbHosted none inpPlain oracleBot).publicPosts =
      [publishTextOf ("Новина")] :=
  ⟨rfl, by decide, by decide, by decide,
    (c4_approval_amended.1 dbHosted none inpPlain oracleBot 1
      { id := 1, title := "t",
        telegraph_url := some ("https://telegra.ph/x-1"),
        translated_content := some ("tc") }
      rfl (by decide) (by decide) (by decide) (by decide) rfl).1⟩

/-- Claim C10 (confirmed): the `SELECT` of `get_article_by_id` carries no
image column and the schema has none, so `article.get('image_url')` is
`None` for every article and the optional `image_url` key is never added:
every webhook payload the handler sends has no image reference. -/
theorem c10_webhook_no_image :
    ∀ db mk inp o p, p ∈ (handle_publish_callback db mk inp o).webhookPayloads →
      p.image_url = none := by
  intro db mk inp o p hp
  unfold handle_publish_callback at hp
  repeat' split at hp
  all_goals try simp_all [articleGetImageUrl]
  all_goals try split at hp
  all_goals try simp_all [articleGetImageUrl]
  all_goals try split at hp
  all_goals try simp_all [articleGetImageUrl]
  all_goals try split at hp
  all_goals simp_all [articleGetImageUrl]

/-- The payload produced in the C10 witness run. -/
def payloadSample : WebhookPayload :=
  { facebook_post := "fb", telegram_post_url := "https://t.me/c/123/5",
    image_url := none }

theorem c10_webhook_no_image_witness :
    (handle_publish_callback dbHosted (some ("https://mk")) inpPlain
        oracleBot).webhookPayloads = [payloadSample] ∧
    payloadSample.image_url = none :=
  ⟨by decide,
    c10_webhook_no_image dbHosted (some ("https://mk")) inpPlain oracleBot
      payloadSample (by decide)⟩

/-! ## Claim C9 -/

theorem keyLe_cons_le (y z : Int) (ys zs : List Int)
    (h : keyLe (y :: ys) (z :: zs) = true) : y ≤ z := by
  simp only [keyLe] at h
  split_ifs at h with h1 h2
  · omega
  · omega

theorem keyLe_total : ∀ a b : List Int, keyLe a b = true ∨ keyLe b a = true := by
  intro a
  induction a with
  | nil => intro b; left; rfl
  | cons x xs ih =>
    intro b
    cases b with
    | nil => right; rfl
    | cons y ys =>
      rcases lt_trichotomy x y with h | h | h
      · left; simp [keyLe, h]
      · subst h
        have hirr : ¬x < x := lt_irrefl x
        rcases ih ys with h' | h'
        · left; simp [keyLe, hirr, h']
        · right; simp [keyLe, hirr, h']
      · right; simp [keyLe, h]

theorem keyLe_trans : ∀ a b c : List Int,
    keyLe a b = true → keyLe b c = true → keyLe a c = true := by
  intro a
  induction a with
  | nil => intro b c _ _; rfl
  | cons x xs ih =>
    intro b c h1 h2
    cases b with
    | nil => exact absurd h1 (by simp [keyLe])
    | cons y ys =>
      cases c with
      | nil => exact absurd h2 (by simp [keyLe])
      | cons z zs =>
        have hxy : x ≤ y := keyLe_cons_le x y xs ys h1
        have hyz : y ≤ z := keyLe_cons_le y z ys zs h2
        by_cases hxz : x < z
        · simp [keyLe, hxz]
        · have hxey : x = y := by omega
          have hyez : y = z := by omega
          have h1' : keyLe xs ys = true := by
            simp only [keyLe, if_neg (by omega : ¬x < y),
              if_neg (by omega : ¬y < x)] at h1
            exact h1
          have h2' : keyLe ys zs = true := by
            simp only [keyLe, if_neg (by omega : ¬y < z),
              if_neg (by omega : ¬z < y)] at h2
            exact h2
          simp only [keyLe, if_neg hxz, if_neg (by omega : ¬z < x)]
          exact ih ys zs h1' h2'

theorem mem_insertDesc (e x : FeedEntry) :
    ∀ l, x ∈ insertDesc e l ↔ x = e ∨ x ∈ l := by
  intro l
  induction l with
  | nil => simp [insertDesc]
  | cons a t ih =>
    simp only [insertDesc]
    split
    · rw [List.mem_cons, ih, List.mem_cons]
      tauto
    · simp only [List.mem_cons]

/-- The descending-key ordering maintained by the sort. -/
def keyGe (a b : FeedEntry) : Prop := keyLe (entryKey b) (entryKey a) = true

theorem pairwise_insertDesc (e : FeedEntry) :
    ∀ l, l.Pairwise keyGe → (insertDesc e l).Pairwise keyGe := by
  intro l
  induction l with
  | nil =>
    intro _
    simp [insertDesc]
  | cons a t ih =>
    intro hl
    rcases List.pairwise_cons.mp hl with ⟨ha, ht⟩
    simp only [insertDesc]
    split
    · rename_i h
      rw [List.pairwise_cons]
      refine ⟨?_, ih ht⟩
      intro y hy
      rcases (mem_insertDesc e y t).mp hy with rfl | hyt
      · exact h
      · exact ha y hyt
    · rename_i h
      have hae : keyLe (entryKey a) (entryKey e) = true := by
        rcases keyLe_total (entryKey e) (entryKey a) with h' | h'
        · exact absurd h' h
        · exact h'
      rw [List.pairwise_cons]
      refine ⟨?_, hl⟩
      intro y hy
      rcases List.mem_cons.mp hy with rfl | hyt
      · exact hae
      · exact keyLe_trans (entryKey y) (entryKey a) (entryKey e) (ha y hyt) hae

theorem pairwise_sortAux :
    ∀ (l : List FeedEntry) (acc : List FeedEntry), acc.Pairwise keyGe →
      (l.foldl (fun acc e => insertDesc e acc) acc).Pairwise keyGe := by
  intro l
  induction l with
  | nil => intro acc h; exact h
  | cons a t ih =>
    intro acc h
    exact ih (insertDesc a acc) (pairwise_insertDesc a acc h)

theorem pairwise_sortDesc (l : List FeedEntry) : (sortDesc l).Pairwise keyGe :=
  pairwise_sortAux l [] (by simp)

theorem mem_sortAux :
    ∀ (l acc : List FeedEntry) (x : FeedEntry),
      x ∈ l.foldl (fun acc e => insertDesc e acc) acc ↔ x ∈ acc ∨ x ∈ l := by
  intro l
  induction l with
  | nil => intro acc x; simp
  | cons a t ih =>
    intro acc x
    rw [List.foldl_cons, ih (insertDesc a acc) x, mem_insertDesc]
    simp only [List.mem_cons]
    tauto

theorem mem_sortDesc (l : List FeedEntry) (x : FeedEntry) :
    x ∈ sortDesc l ↔ x ∈ l := by
  unfold sortDesc
  rw [mem_sortAux]
  simp

/-- Claim C9 (confirmed): on a malformed feed (`bozo` set) the poller
returns an empty list instead of raising; otherwise it returns at most
`count` candidates, each carrying only title and link, taken from the
entries sorted by publication key descending (Python's stable
`sorted(..., reverse=True)`); the sorted order is pairwise descending, and
whenever every present timestamp compares strictly above the default key
`(0,)` of a missing timestamp (true of any `struct_time` with year ≥ 1),
entries lacking a timestamp come after all entries having one. -/
theorem c9_poller :
    (∀ feed count, feed.bozo = true → get_latest_articles feed count = []) ∧
    (∀ feed count, (get_latest_articles feed count).length ≤ count) ∧
    (∀ feed count, feed.bozo = false → feed.entries ≠ [] →
      get_latest_articles feed count =
        ((sortDesc feed.entries).take count).map
          (fun e => { title := e.title, link := e.link })) ∧
    (∀ l, (sortDesc l).Pairwise keyGe) ∧
    (∀ l, (∀ e ∈ l, ∀ ts, e.published_parsed = some ts → keyLe ts [0] = false) →
      (sortDesc l).Pairwise
        (fun a b => a.published_parsed = none → b.published_parsed = none)) := by
  refine ⟨?_, ?_, ?_, pairwise_sortDesc, ?_⟩
  · intro feed count h
    simp [get_latest_articles, h]
  · intro feed count
    unfold get_latest_articles
    split
    · simp
    · split
      · simp
      · rw [List.length_map, List.length_take]
        exact min_le_left _ _
  · intro feed count hbozo hne
    have hE : feed.entries.isEmpty = false := by
      rcases h : feed.entries with _ | ⟨a, t⟩
      · exact absurd h hne
      · rfl
    simp [get_latest_articles, hbozo, hE]
  · intro l h
    refine (pairwise_sortDesc l).imp_of_mem ?_
    intro a b ha hb hr hnone
    cases hbp : b.published_parsed with
    | none => rfl
    | some ts =>
      exfalso
      have hb' : b ∈ l := (mem_sortDesc l b).mp hb
      have hts : keyLe ts [0] = false := h b hb' ts hbp
      have hka : entryKey a = [0] := by
        unfold entryKey
        rw [hnone]
        rfl
      have hkb : entryKey b = ts := by
        unfold entryKey
        rw [hbp]
        rfl
      unfold keyGe at hr
      rw [hka, hkb] at hr
      rw [hr] at hts
      exact Bool.noConfusion hts

theorem c9_poller_witness :
    ({ bozo := false,
       entries := [{ title := "new", link := "l1", published_parsed := some [2024, 5, 1] },
                   { title := "old", link := "l2", published_parsed := none }] } : Feed).bozo
        = false ∧
    get_latest_articles
        { bozo := false,
          entries := [{ title := "new", link := "l1", published_parsed := some [2024, 5, 1] },
                      { title := "old", link := "l2", published_parsed := none }] } 1 =
      [{ title := "new", link := "l1" }] :=
  ⟨rfl, by
    rw [c9_poller.2.2.1
      { bozo := false,
        entries := [{ title := "new", link := "l1", published_parsed := some [2024, 5, 1] },
                    { title := "old", link := "l2", published_parsed := none }] } 1
      rfl (by decide)]
    decide⟩

end RSSView
